import Mathlib

/-!
Verification of the contextual vector-search engine
(`app/models/search_engine.py`, `app/services/search_service.py`).

The engine keeps documents with dense vector embeddings in a backing
document/vector store and offers three retrieval modes (semantic, hybrid,
tag).  The Python code is shallowly embedded below:

* `StoredDoc`, `Store` model the backing store's index: an optional mapping
  (created by `create_index`) plus the stored documents.  `Store.fail`
  injects a backing-store failure: when it is `some e`, every client call
  raises `e` (e.g. the store is unreachable).
* `EmbeddingModel` models the sentence-transformer: `encode` returns
  `none` on inference failure, and `dimension` is the model's reported
  output dimension D.
* The backend's query evaluation (an external collaborator, spec section 6:
  bool queries with `must` / `should` / `filter`, `knn` top-k on
  `content_vector`, `multi_match`, `term` on `category`, `terms` on `tags`,
  descending-score ranking with the store's stable tie-break, `size` cap,
  highlighting) is modelled by `execSearch` over an abstract `Backend`
  carrying the knn similarity function, the lexical scoring function and
  the highlighter.
* Scores and vector components are modelled as rationals.

Engine functions return `Except StoreError _`: a `.error` result models an
exception propagating out of the Python function, `.ok` a normal return.
-/

deriving instance DecidableEq for Except

/-- A failure raised by the backing store client. -/
inductive StoreError where
  | unreachable
  | queryError
  | schemaError
deriving Repr, DecidableEq

/-- A document as persisted in the index (the `_source` of a hit). -/
structure StoredDoc where
  id : String
  title : String
  content : String
  title_vector : List Rat
  content_vector : List Rat
  category : String
  tags : List String
  created_at : String
deriving Repr, DecidableEq

/-- The index mapping created by `create_index`: the vector dimension plus
the fixed settings (`number_of_shards`, `number_of_replicas`,
`knn.algo_param.ef_search`). -/
structure IndexMapping where
  dimension : Nat
  shards : Nat
  replicas : Nat
  efSearch : Nat
deriving Repr, DecidableEq

/-- The backing store: the index (absent when `mapping = none`), its
documents in internal order, and an injected failure (`fail = some e`
makes every client call raise `e`). -/
structure Store where
  mapping : Option IndexMapping
  docs : List StoredDoc
  fail : Option StoreError
deriving Repr, DecidableEq

/-- The loaded sentence-transformer model: `encode` is `none` on inference
failure, `dimension` the reported embedding dimension D. -/
structure EmbeddingModel where
  encode : String → Option (List Rat)
  dimension : Nat

/-- Python truthiness of an `Optional[str]`: `None` and `''` are falsy. -/
def pyTruthy : Option String → Bool
  | none => false
  | some s => s ≠ ""

/-- Python `x or d` for an `Optional[str] x`: `None` and `''` both fall
through to the default. -/
def pyOrStr (x : Option String) (d : String) : String :=
  match x with
  | none => d
  | some s => if s = "" then d else s

namespace ContextualSearchEngine

/-- `_generate_embeddings`: encode the text; on inference failure log and
return a zero vector of length D. -/
def generate_embeddings (m : EmbeddingModel) (text : String) : List Rat :=
  match m.encode text with
  | some v => v
  | none => List.replicate m.dimension 0

/-- `create_index`: if the index already exists, log and return; otherwise
create the mapping (dimension D, one shard, zero replicas, ef_search 100).
The client calls are not wrapped in try/except, so a store failure
propagates to the caller. -/
def create_index (m : EmbeddingModel) (s : Store) : Except StoreError Store :=
  match s.fail with
  | some e => .error e
  | none =>
    if s.mapping.isSome then
      .ok s
    else
      .ok { s with mapping := some { dimension := m.dimension, shards := 1,
                                     replicas := 0, efSearch := 100 } }

/-- The document body built by `index_document`: both texts embedded,
`category or ''`, `tags or []`, `created_at or datetime.utcnow().isoformat()`
(the current time is passed in as `now`). -/
def buildDocument (m : EmbeddingModel) (docId title content : String)
    (category : Option String) (tags : Option (List String))
    (created_at : Option String) (now : String) : StoredDoc :=
  { id := docId
    title := title
    content := content
    title_vector := generate_embeddings m title
    content_vector := generate_embeddings m content
    category := (category.getD "")
    tags := (tags.getD [])
    created_at := pyOrStr created_at now }

/-- Upsert by id: replace the document with the same id, or append. -/
def upsertDoc (docs : List StoredDoc) (d : StoredDoc) : List StoredDoc :=
  if docs.any (fun x => x.id = d.id) then
    docs.map (fun x => if x.id = d.id then d else x)
  else
    docs ++ [d]

/-- `client.index(index=..., id=..., body=...)`: upsert by id. Raises when
the store fails. -/
def clientIndexDoc (s : Store) (d : StoredDoc) : Except StoreError Store :=
  match s.fail with
  | some e => .error e
  | none => .ok { s with docs := upsertDoc s.docs d }

/-- `index_document`: embed title and content, build the document, write it
with `client.index` inside try/except — any store failure is caught and
logged and the function returns normally. -/
def index_document (m : EmbeddingModel) (s : Store) (docId title content : String)
    (category : Option String) (tags : Option (List String))
    (created_at : Option String) (now : String) : Except StoreError Store :=
  let document := buildDocument m docId title content category tags created_at now
  match clientIndexDoc s document with
  | .ok s' => .ok s'
  | .error _ => .ok s

/-- An input record for `bulk_index_documents` (a Python dict; the optional
fields model `doc.get(..., default)` / `doc.get(...) or ...`). -/
structure InputDoc where
  id : String
  title : String
  content : String
  category : Option String
  tags : Option (List String)
  created_at : Option String
deriving Repr, DecidableEq

/-- The `_source` of one bulk action: both texts embedded,
`doc.get("category", '')`, `doc.get("tags", [])`,
`doc.get("created_at") or datetime.utcnow().isoformat()`. -/
def bulkAction (m : EmbeddingModel) (now : String) (doc : InputDoc) : StoredDoc :=
  { id := doc.id
    title := doc.title
    content := doc.content
    title_vector := generate_embeddings m doc.title
    content_vector := generate_embeddings m doc.content
    category := doc.category.getD ""
    tags := doc.tags.getD []
    created_at := pyOrStr doc.created_at now }

/-- `helpers.bulk(self.client, actions)`: apply all upsert actions, raising
when the store fails. -/
def clientBulk (s : Store) (actions : List StoredDoc) : Except StoreError Store :=
  match s.fail with
  | some e => .error e
  | none => .ok { s with docs := actions.foldl upsertDoc s.docs }

/-- `bulk_index_documents`: build all actions, submit one batch write inside
try/except — any store failure is caught and logged and the function
returns normally. -/
def bulk_index_documents (m : EmbeddingModel) (s : Store) (docs : List InputDoc)
    (now : String) : Except StoreError Store :=
  let actions := docs.map (bulkAction m now)
  match clientBulk s actions with
  | .ok s' => .ok s'
  | .error _ => .ok s

end ContextualSearchEngine

/-! ## The backend's query evaluation (external collaborator, spec section 6) -/

/-- The abstract parts of the backing store's scoring: the knn similarity
between a query vector and a stored vector, the `multi_match` lexical score
(`none` = the document does not match the text query), and the highlighter
producing per-field excerpt fragments for a matched document. -/
structure Backend where
  sim : List Rat → List Rat → Rat
  kwScore : String → StoredDoc → Option Rat
  highlighter : StoredDoc → List (String × List String)

/-- A query clause as used by the engine's three search bodies. -/
inductive Clause where
  /-- `knn` on `content_vector` with a query vector, `k`, and a boost. -/
  | knn (vector : List Rat) (k : Nat) (boost : Rat)
  /-- `multi_match` over `title^2`/`content` with a boost. -/
  | multiMatch (query : String) (boost : Rat)
  /-- `term` on the `category` keyword field. -/
  | termCategory (value : String)
  /-- `terms` on the `tags` keyword field. -/
  | termsTags (values : List String)

/-- A `bool` query: `must` clauses (all required, scoring), `should`
clauses (scoring; required only when there is no must/filter clause), and
non-scoring `filter` clauses. -/
structure BoolQuery where
  must : List Clause
  should : List Clause
  filter : List Clause

/-- A search body as built by the engine: the query, whether highlighting
was requested, and the result size. -/
structure SearchBody where
  query : BoolQuery
  highlightRequested : Bool
  size : Nat

/-- Stable descending insertion by key: the new element goes before every
element of not-larger key, so earlier elements of equal key keep priority. -/
def insertDesc (key : α → Rat) (x : α) : List α → List α
  | [] => [x]
  | y :: ys => if key y ≤ key x then x :: y :: ys else y :: insertDesc key x ys

/-- Stable sort by descending key: the backing store's ranking order
(descending score, ties kept in internal document order). -/
def sortDesc (key : α → Rat) : List α → List α
  | [] => []
  | x :: xs => insertDesc key x (sortDesc key xs)

/-- The k nearest stored documents to a query vector among the candidate
documents (exact top-k by similarity). -/
def knnTopK (b : Backend) (v : List Rat) (k : Nat) (cands : List StoredDoc) :
    List StoredDoc :=
  (sortDesc (fun d => b.sim v d.content_vector) cands).take k

/-- Whether / how strongly one clause matches a document, given the
candidate set (knn ranks within the filtered candidates: the category
filter is a pre-filter, spec section 6). `none` means no match; a `term` /
`terms` match carries the backend's constant term score 1. -/
def clauseScore (b : Backend) (cands : List StoredDoc) (c : Clause)
    (d : StoredDoc) : Option Rat :=
  match c with
  | .knn v k boost =>
    if d ∈ knnTopK b v k cands then some (boost * b.sim v d.content_vector)
    else none
  | .multiMatch q boost => (b.kwScore q d).map (fun r => boost * r)
  | .termCategory value => if d.category = value then some 1 else none
  | .termsTags values =>
    if d.tags.any (fun t => values.contains t) then some 1 else none

/-- `bool` match condition beyond the filter: all `must` clauses match and,
when there is no `must` and no `filter` clause, at least one `should`
clause matches (the store's `minimum_should_match` default). -/
def mustShouldMatch (b : Backend) (cands : List StoredDoc) (q : BoolQuery)
    (d : StoredDoc) : Bool :=
  q.must.all (fun c => (clauseScore b cands c d).isSome) &&
  (if q.must.isEmpty && q.filter.isEmpty && !q.should.isEmpty then
     q.should.any (fun c => (clauseScore b cands c d).isSome)
   else true)

/-- The combined score of a matching document: the sum of the matching
`must` and `should` contributions (filters do not score). -/
def boolScore (b : Backend) (cands : List StoredDoc) (q : BoolQuery)
    (d : StoredDoc) : Rat :=
  ((q.must ++ q.should).map (fun c => (clauseScore b cands c d).getD 0)).sum

/-- A raw hit of the store's response. -/
structure Hit where
  hitId : String
  score : Rat
  source : StoredDoc
  highlight : Option (List (String × List String))
deriving Repr, DecidableEq

/-- The candidate documents of a search: those passing every filter clause. -/
def candidatesOf (b : Backend) (docs : List StoredDoc) (body : SearchBody) :
    List StoredDoc :=
  docs.filter (fun d =>
    body.query.filter.all (fun c => (clauseScore b docs c d).isSome))

/-- The matching documents of a search, in internal store order. -/
def matchedOf (b : Backend) (docs : List StoredDoc) (body : SearchBody) :
    List StoredDoc :=
  (candidatesOf b docs body).filter
    (mustShouldMatch b (candidatesOf b docs body) body.query)

/-- Execute a search body: rank the matching candidates by descending
combined score (stable tie-break in store order), keep the top `size`, and
shape each into a hit (with highlight data only when requested). -/
def execSearch (b : Backend) (docs : List StoredDoc) (body : SearchBody) :
    List Hit :=
  ((sortDesc (boolScore b (candidatesOf b docs body) body.query)
      (matchedOf b docs body)).take body.size).map
    (fun d =>
      { hitId := d.id
        score := boolScore b (candidatesOf b docs body) body.query d
        source := d
        highlight := if body.highlightRequested then some (b.highlighter d)
                     else none })

/-- `client.search`: raises when the store fails, else evaluates the body. -/
def clientSearch (b : Backend) (s : Store) (body : SearchBody) :
    Except StoreError (List Hit) :=
  match s.fail with
  | some e => .error e
  | none => .ok (execSearch b s.docs body)

/-! ## The engine's three retrieval operations -/

/-- A result dict built by the engine's hit loops (`highlights = none`
models the key being absent from the dict, as in the tag-search mapper). -/
structure EngineResult where
  id : String
  score : Rat
  title : String
  content : String
  category : Option String
  tags : List String
  highlights : Option (List (String × List String))
deriving Repr, DecidableEq

namespace ContextualSearchEngine

/-- The category filter of `semantic_search` / `hybrid_search`: a `term`
clause on `category` is added only when `if category:` is truthy. -/
def catFilter (category : Option String) : List Clause :=
  if pyTruthy category then [Clause.termCategory (category.getD "")] else []

/-- The body built by `semantic_search`: one `must` knn clause on
`content_vector` with `k = size` (default boost 1), the category filter,
highlighting on, `size`. -/
def semanticBody (qv : List Rat) (size : Nat) (category : Option String) :
    SearchBody :=
  { query := { must := [Clause.knn qv size 1], should := [],
               filter := catFilter category }
    highlightRequested := true
    size := size }

/-- The body built by `hybrid_search`: `should` clauses `multi_match`
(boost `keyword_weight`) and knn (`k = size`, boost `semantic_weight`),
the category filter, highlighting on, `size`. -/
def hybridBody (q : String) (qv : List Rat) (size : Nat)
    (category : Option String) (semantic_weight keyword_weight : Rat) :
    SearchBody :=
  { query := { must := [],
               should := [Clause.multiMatch q keyword_weight,
                          Clause.knn qv size semantic_weight],
               filter := catFilter category }
    highlightRequested := true
    size := size }

/-- The body built by `search_by_tags`: a bare `terms` query on `tags`,
no highlighting, `size`. -/
def tagsBody (tags : List String) (size : Nat) : SearchBody :=
  { query := { must := [Clause.termsTags tags], should := [], filter := [] }
    highlightRequested := false
    size := size }

/-- The result dict of the semantic/hybrid hit loops: copies `_id`,
`_score`, the source fields, and `hit.get('highlight', {})`. -/
def hitToResult (h : Hit) : EngineResult :=
  { id := h.hitId
    score := h.score
    title := h.source.title
    content := h.source.content
    category := some h.source.category
    tags := h.source.tags
    highlights := some (h.highlight.getD []) }

/-- The result dict of the tag-search hit loop: same fields except that no
`highlights` key is produced. -/
def tagHitToResult (h : Hit) : EngineResult :=
  { id := h.hitId
    score := h.score
    title := h.source.title
    content := h.source.content
    category := some h.source.category
    tags := h.source.tags
    highlights := none }

/-- `semantic_search`: embed the query, build the knn body, run it inside
try/except — any store failure is caught and logged and the empty list is
returned. -/
def semantic_search (b : Backend) (m : EmbeddingModel) (s : Store)
    (query : String) (size : Nat) (category : Option String) :
    Except StoreError (List EngineResult) :=
  let query_vector := generate_embeddings m query
  match clientSearch b s (semanticBody query_vector size category) with
  | .ok hits => .ok (hits.map hitToResult)
  | .error _ => .ok []

/-- `hybrid_search`: embed the query, build the two-signal body, run it
inside try/except — any store failure is caught and logged and the empty
list is returned. -/
def hybrid_search (b : Backend) (m : EmbeddingModel) (s : Store)
    (query : String) (size : Nat) (category : Option String)
    (semantic_weight keyword_weight : Rat) :
    Except StoreError (List EngineResult) :=
  let query_vector := generate_embeddings m query
  match clientSearch b s
      (hybridBody query query_vector size category semantic_weight keyword_weight) with
  | .ok hits => .ok (hits.map hitToResult)
  | .error _ => .ok []

/-- `search_by_tags`: build the terms body, run it inside try/except — any
store failure is caught and logged and the empty list is returned. -/
def search_by_tags (b : Backend) (s : Store) (tags : List String)
    (size : Nat) : Except StoreError (List EngineResult) :=
  match clientSearch b s (tagsBody tags size) with
  | .ok hits => .ok (hits.map tagHitToResult)
  | .error _ => .ok []

end ContextualSearchEngine

/-! ## The service layer (`app/services/search_service.py`) -/

/-- The settings the service layer reads (`app/config/settings.py`). -/
structure Settings where
  max_search_size : Nat

/-- `SearchRequest` (`app/schemas/search.py`). -/
structure SearchRequest where
  query : String
  size : Nat
  category : Option String

/-- `HybridSearchRequest`. -/
structure HybridSearchRequest where
  query : String
  size : Nat
  category : Option String
  semantic_weight : Rat
  keyword_weight : Rat

/-- `TagSearchRequest`. -/
structure TagSearchRequest where
  tags : List String
  size : Nat

/-- The `SearchResult` Pydantic model: `highlights` has an empty-mapping
default. -/
structure ServiceSearchResult where
  id : String
  score : Rat
  title : String
  content : String
  category : Option String
  tags : List String
  highlights : List (String × List String)
deriving Repr, DecidableEq

/-- The service's per-hit conversion into the `SearchResult` model:
`highlights=result.get('highlights', {})`. -/
def toServiceResult (r : EngineResult) : ServiceSearchResult :=
  { id := r.id
    score := r.score
    title := r.title
    content := r.content
    category := r.category
    tags := r.tags
    highlights := r.highlights.getD [] }

namespace SearchService

/-- `SearchService.semantic_search`: clamp the size to the configured
maximum, call the engine, convert the results. -/
def semantic_search (st : Settings) (b : Backend) (m : EmbeddingModel)
    (s : Store) (req : SearchRequest) :
    Except StoreError (List ServiceSearchResult) :=
  (ContextualSearchEngine.semantic_search b m s req.query
      (min req.size st.max_search_size) req.category).map
    (List.map toServiceResult)

/-- `SearchService.hybrid_search`: clamp the size, call the engine with the
request's weights, convert the results. -/
def hybrid_search (st : Settings) (b : Backend) (m : EmbeddingModel)
    (s : Store) (req : HybridSearchRequest) :
    Except StoreError (List ServiceSearchResult) :=
  (ContextualSearchEngine.hybrid_search b m s req.query
      (min req.size st.max_search_size) req.category
      req.semantic_weight req.keyword_weight).map
    (List.map toServiceResult)

/-- `SearchService.search_by_tags`: clamp the size, call the engine,
convert the results. -/
def search_by_tags (st : Settings) (b : Backend) (s : Store)
    (req : TagSearchRequest) :
    Except StoreError (List ServiceSearchResult) :=
  (ContextualSearchEngine.search_by_tags b s req.tags
      (min req.size st.max_search_size)).map
    (List.map toServiceResult)

end SearchService

/-- The length of a retrieval outcome's result list (0 when the call
raised). -/
def resultsLen (r : Except StoreError (List ServiceSearchResult)) : Nat :=
  match r with
  | .ok l => l.length
  | .error _ => 0

/-- The ranked id sequence of an engine retrieval outcome (empty when the
call raised). -/
def resultIds (r : Except StoreError (List EngineResult)) : List String :=
  match r with
  | .ok l => l.map EngineResult.id
  | .error _ => []

/-! ## Concrete instances used to exercise the theorems -/

/-- A concrete backend: knn similarity `1 + first component` (positive on
the demo vectors), no lexical matches, a fixed highlight fragment. -/
def demoBackend : Backend :=
  { sim := fun _ d => 1 + d.headD 0
    kwScore := fun _ _ => none
    highlighter := fun _ => [("content", ["excerpt"])] }

/-- Demo document A (tags `{a, b}`, category `pets`). -/
def demoDocA : StoredDoc :=
  { id := "A", title := "Cats and Dogs", content := "Cats are great pets",
    title_vector := [1], content_vector := [1], category := "pets",
    tags := ["a", "b"], created_at := "2024-01-01T00:00:00" }

/-- Demo document B (tags `{c}`, category `finance`). -/
def demoDocB : StoredDoc :=
  { id := "B", title := "Stock Market", content := "Markets rose today",
    title_vector := [2], content_vector := [2], category := "finance",
    tags := ["c"], created_at := "2024-01-02T00:00:00" }

/-- A healthy demo store holding documents A and B. -/
def demoStore : Store :=
  { mapping := some { dimension := 1, shards := 1, replicas := 0, efSearch := 100 }
    docs := [demoDocA, demoDocB]
    fail := none }

/-- A store whose backing service is unreachable: every client call raises. -/
def downStore : Store :=
  { mapping := some { dimension := 1, shards := 1, replicas := 0, efSearch := 100 }
    docs := [demoDocA]
    fail := some .unreachable }

/-- A demo embedding model of dimension 2 whose inference always succeeds
with a vector of length 2. -/
def demoModel : EmbeddingModel :=
  { encode := fun _ => some [1, 2], dimension := 2 }

/-- Demo service settings. -/
def demoSettings : Settings := { max_search_size := 100 }

/-! ## Lemmas about the store's stable descending ranking -/

theorem insertDesc_perm (key : α → Rat) (x : α) (l : List α) :
    (insertDesc key x l).Perm (x :: l) := by
  induction l with
  | nil => simp [insertDesc]
  | cons y ys ih =>
    by_cases h : key y ≤ key x
    · simp [insertDesc, h]
    · simp only [insertDesc, if_neg h]
      exact (ih.cons y).trans (List.Perm.swap x y ys)

theorem sortDesc_perm (key : α → Rat) (l : List α) :
    (sortDesc key l).Perm l := by
  induction l with
  | nil => simp [sortDesc]
  | cons x xs ih =>
    exact (insertDesc_perm key x (sortDesc key xs)).trans (ih.cons x)

theorem mem_insertDesc {key : α → Rat} {x y : α} {l : List α} :
    y ∈ insertDesc key x l ↔ y = x ∨ y ∈ l := by
  rw [(insertDesc_perm key x l).mem_iff, List.mem_cons]

theorem mem_sortDesc {key : α → Rat} {y : α} {l : List α} :
    y ∈ sortDesc key l ↔ y ∈ l :=
  (sortDesc_perm key l).mem_iff

theorem length_sortDesc (key : α → Rat) (l : List α) :
    (sortDesc key l).length = l.length :=
  (sortDesc_perm key l).length_eq

theorem insertDesc_sorted {key : α → Rat} {l : List α}
    (hl : l.Pairwise (fun a b => key b ≤ key a)) (x : α) :
    (insertDesc key x l).Pairwise (fun a b => key b ≤ key a) := by
  induction l with
  | nil => simp [insertDesc]
  | cons y ys ih =>
    rcases List.pairwise_cons.1 hl with ⟨hy, hys⟩
    by_cases h : key y ≤ key x
    · simp only [insertDesc, if_pos h]
      refine List.pairwise_cons.2 ⟨?_, hl⟩
      intro z hz
      rcases List.mem_cons.1 hz with rfl | hz
      · exact h
      · exact le_trans (hy z hz) h
    · simp only [insertDesc, if_neg h]
      refine List.pairwise_cons.2 ⟨?_, ih hys⟩
      intro z hz
      rcases mem_insertDesc.1 hz with rfl | hz
      · exact le_of_lt (lt_of_not_le h)
      · exact hy z hz

theorem sortDesc_sorted (key : α → Rat) (l : List α) :
    (sortDesc key l).Pairwise (fun a b => key b ≤ key a) := by
  induction l with
  | nil => simp [sortDesc]
  | cons x xs ih => exact insertDesc_sorted ih x

theorem insertDesc_of_forall_le {key : α → Rat} {x : α} {l : List α}
    (h : ∀ z ∈ l, key z ≤ key x) : insertDesc key x l = x :: l := by
  cases l with
  | nil => rfl
  | cons y ys => simp [insertDesc, h y (List.mem_cons_self y ys)]

theorem sortDesc_of_const {key : α → Rat} {c : Rat} {l : List α}
    (h : ∀ y ∈ l, key y = c) : sortDesc key l = l := by
  induction l with
  | nil => rfl
  | cons x xs ih =>
    have hxs : ∀ y ∈ xs, key y = c := fun y hy => h y (List.mem_cons_of_mem x hy)
    rw [sortDesc, ih hxs, insertDesc_of_forall_le]
    intro z hz
    rw [hxs z hz, h x (List.mem_cons_self x xs)]

theorem filter_insertDesc {key : α → Rat} (p : α → Bool) {l : List α}
    (hl : l.Pairwise (fun a b => key b ≤ key a)) (x : α) :
    (insertDesc key x l).filter p =
      if p x then insertDesc key x (l.filter p) else l.filter p := by
  induction l with
  | nil => by_cases hx : p x <;> simp [insertDesc, hx]
  | cons y ys ih =>
    rcases List.pairwise_cons.1 hl with ⟨hy, hys⟩
    by_cases h : key y ≤ key x
    · have hall : ∀ z ∈ (y :: ys).filter p, key z ≤ key x := by
        intro z hz
        rcases List.mem_cons.1 (List.mem_of_mem_filter hz) with rfl | hz'
        · exact h
        · exact le_trans (hy z hz') h
      have hins : insertDesc key x (y :: ys) = x :: y :: ys := by
        simp [insertDesc, h]
      by_cases hx : p x
      · rw [if_pos hx, insertDesc_of_forall_le hall, hins]
        simp [List.filter_cons, hx]
      · rw [if_neg hx, hins]
        simp [List.filter_cons, hx]
    · by_cases hx : p x <;> by_cases hpy : p y <;>
        simp_all [insertDesc, if_neg h, List.filter_cons, ih hys]

theorem filter_sortDesc (key : α → Rat) (p : α → Bool) (l : List α) :
    (sortDesc key l).filter p = sortDesc key (l.filter p) := by
  induction l with
  | nil => rfl
  | cons x xs ih =>
    rw [sortDesc, filter_insertDesc p (sortDesc_sorted key xs) x, ih,
      List.filter_cons]
    by_cases hx : p x <;> simp [hx, sortDesc]

theorem insertDesc_congr {key₁ key₂ : α → Rat} {x : α} {l : List α}
    (h : ∀ z ∈ x :: l, key₁ z = key₂ z) :
    insertDesc key₁ x l = insertDesc key₂ x l := by
  induction l with
  | nil => rfl
  | cons y ys ih =>
    have hx := h x (List.mem_cons_self x (y :: ys))
    have hy := h y (List.mem_cons_of_mem x (List.mem_cons_self y ys))
    have hys : ∀ z ∈ x :: ys, key₁ z = key₂ z := by
      intro z hz
      rcases List.mem_cons.1 hz with rfl | hz'
      · exact hx
      · exact h z (List.mem_cons_of_mem x (List.mem_cons_of_mem y hz'))
    simp only [insertDesc, hx, hy, ih hys]

theorem sortDesc_congr {key₁ key₂ : α → Rat} {l : List α}
    (h : ∀ z ∈ l, key₁ z = key₂ z) : sortDesc key₁ l = sortDesc key₂ l := by
  induction l with
  | nil => rfl
  | cons x xs ih =>
    have hxs : ∀ z ∈ xs, key₁ z = key₂ z :=
      fun z hz => h z (List.mem_cons_of_mem x hz)
    rw [sortDesc, sortDesc, ih hxs]
    refine insertDesc_congr ?_
    intro z hz
    rcases List.mem_cons.1 hz with rfl | hz'
    · exact h z (List.mem_cons_self z xs)
    · exact hxs z (mem_sortDesc.1 hz')

/-- In a descending-sorted list where a predicate holds exactly on the
strictly-positive keys, the predicate's elements form a prefix. -/
theorem sorted_pos_split {key : α → Rat} {p : α → Bool} {l : List α}
    (hs : l.Pairwise (fun a b => key b ≤ key a))
    (hp : ∀ x ∈ l, p x = true ↔ 0 < key x) :
    l = l.filter p ++ l.filter (fun x => !p x) := by
  induction l with
  | nil => rfl
  | cons x xs ih =>
    rcases List.pairwise_cons.1 hs with ⟨hx, hxs⟩
    have hpxs : ∀ y ∈ xs, p y = true ↔ 0 < key y :=
      fun y hy => hp y (List.mem_cons_of_mem x hy)
    by_cases hpx : p x
    · simpa [List.filter_cons, hpx] using ih hxs hpxs
    · have hxnonpos : key x ≤ 0 := by
        by_contra hc
        exact hpx ((hp x (List.mem_cons_self x xs)).2 (lt_of_not_le hc))
      have hnone : ∀ y ∈ xs, p y = false := by
        intro y hy
        have : key y ≤ 0 := le_trans (hx y hy) hxnonpos
        by_contra hc
        have := (hpxs y hy).1 (by revert hc; cases p y <;> simp)
        exact absurd this (not_lt.2 ‹key y ≤ 0›)
      have h1 : xs.filter p = [] := List.filter_eq_nil_iff.2 (by
        intro y hy
        simp [hnone y hy])
      have h2 : xs.filter (fun x => !p x) = xs := List.filter_eq_self.2 (by
        intro y hy
        simp [hnone y hy])
      simp [List.filter_cons, hpx, h1, h2]

/-! ## C1 — error propagation of `index_document` -/

/-- C1 counterexample: the claim says a failing store write makes
`index_document` propagate the underlying error, but on a concrete
unreachable store `index_document` catches the failure, logs it, and
returns normally with the store unchanged — no error reaches the caller. -/
theorem index_document_raises_counterexample :
    ContextualSearchEngine.index_document demoModel downStore "d1" "Title"
      "Content" none none none "2024-01-03T00:00:00" = Except.ok downStore := by
  rfl

/-- C1 (amended): whenever the store write fails during `index_document`,
the error is caught and logged; `index_document` returns normally and the
store is left unchanged, so the failure is swallowed, not surfaced. -/
theorem index_document_swallows_store_failure (m : EmbeddingModel) (s : Store)
    (docId title content : String) (category : Option String)
    (tags : Option (List String)) (created_at : Option String) (now : String)
    (e : StoreError) (h : s.fail = some e) :
    ContextualSearchEngine.index_document m s docId title content category
      tags created_at now = Except.ok s := by
  simp [ContextualSearchEngine.index_document,
    ContextualSearchEngine.clientIndexDoc, h]

/-- C1 witness: the amended theorem applied to the unreachable demo store. -/
theorem index_document_swallows_store_failure_witness :
    ContextualSearchEngine.index_document demoModel downStore "d2" "T" "C"
      (some "cat") (some ["t"]) (some "2024-01-04") "2024-01-05" =
      Except.ok downStore :=
  index_document_swallows_store_failure demoModel downStore "d2" "T" "C"
    (some "cat") (some ["t"]) (some "2024-01-04") "2024-01-05"
    StoreError.unreachable rfl

/-! ## C2 — retrieval operations swallow backend failures -/

/-- C2: whenever the backing store raises during query execution, each of
`semantic_search`, `hybrid_search` and `search_by_tags` catches the failure
internally and returns the empty result list instead of raising. -/
theorem retrieval_returns_empty_on_failure (b : Backend) (m : EmbeddingModel)
    (s : Store) (q : String) (size : Nat) (category : Option String)
    (sw kw : Rat) (tags : List String) (e : StoreError)
    (h : s.fail = some e) :
    ContextualSearchEngine.semantic_search b m s q size category =
      Except.ok [] ∧
    ContextualSearchEngine.hybrid_search b m s q size category sw kw =
      Except.ok [] ∧
    ContextualSearchEngine.search_by_tags b s tags size = Except.ok [] := by
  refine ⟨?_, ?_, ?_⟩ <;>
    simp [ContextualSearchEngine.semantic_search,
      ContextualSearchEngine.hybrid_search,
      ContextualSearchEngine.search_by_tags, clientSearch, h]

/-- C2 witness: all three retrieval operations on the unreachable demo
store return the empty list. -/
theorem retrieval_returns_empty_on_failure_witness :
    ContextualSearchEngine.semantic_search demoBackend demoModel downStore
      "query" 10 none = Except.ok [] ∧
    ContextualSearchEngine.hybrid_search demoBackend demoModel downStore
      "query" 10 none 1 0 = Except.ok [] ∧
    ContextualSearchEngine.search_by_tags demoBackend downStore ["a"] 10 =
      Except.ok [] :=
  retrieval_returns_empty_on_failure demoBackend demoModel downStore "query"
    10 none 1 0 ["a"] StoreError.unreachable rfl

/-! ## C5 — idempotent schema creation -/

/-- C5: `create_index` is idempotent: when the index already exists the
call changes nothing and raises no error, and a second call after any
successful call returns the state of the first unchanged. -/
theorem create_index_idempotent (m : EmbeddingModel) (s : Store)
    (h : s.fail = none) :
    (∀ mp, s.mapping = some mp →
      ContextualSearchEngine.create_index m s = Except.ok s) ∧
    (∀ s', ContextualSearchEngine.create_index m s = Except.ok s' →
      ContextualSearchEngine.create_index m s' = Except.ok s') := by
  constructor
  · intro mp hmp
    simp [ContextualSearchEngine.create_index, h, hmp]
  · intro s' hs'
    cases hmp : s.mapping with
    | some mp =>
      have : s' = s := by
        simp [ContextualSearchEngine.create_index, h, hmp] at hs'
        exact hs'.symm
      subst this
      simp [ContextualSearchEngine.create_index, h, hmp]
    | none =>
      simp [ContextualSearchEngine.create_index, h, hmp] at hs'
      subst hs'
      simp [ContextualSearchEngine.create_index, h]

/-- C5 witness: on the demo store (whose index exists) `create_index` is a
no-op returning the unchanged store. -/
theorem create_index_idempotent_witness :
    ContextualSearchEngine.create_index demoModel demoStore =
      Except.ok demoStore :=
  (create_index_idempotent demoModel demoStore rfl).1
    { dimension := 1, shards := 1, replicas := 0, efSearch := 100 } rfl

/-! ## C9 — empty-string category adds no filter -/

/-- C9: the empty-string category (the engine-level default) is treated
exactly like no category: no filter clause is added to either search body,
and both searches return the same results as with `category=None`. -/
theorem empty_category_is_no_category (b : Backend) (m : EmbeddingModel)
    (s : Store) (q : String) (size : Nat) (sw kw : Rat) :
    ContextualSearchEngine.catFilter (some "") = [] ∧
    (ContextualSearchEngine.semanticBody
      (ContextualSearchEngine.generate_embeddings m q) size (some "")).query.filter = [] ∧
    (ContextualSearchEngine.hybridBody q
      (ContextualSearchEngine.generate_embeddings m q) size (some "") sw kw).query.filter = [] ∧
    ContextualSearchEngine.semantic_search b m s q size (some "") =
      ContextualSearchEngine.semantic_search b m s q size none ∧
    ContextualSearchEngine.hybrid_search b m s q size (some "") sw kw =
      ContextualSearchEngine.hybrid_search b m s q size none sw kw := by
  refine ⟨rfl, rfl, rfl, rfl, rfl⟩

/-! ## C7 — result size is clamped -/

/-- C7: in every query mode the number of returned results is at most
`min(requested_size, configured_max_size)`: the service clamps the size
before calling the engine, and the engine requests at most that many hits. -/
theorem results_bounded_by_clamped_size (st : Settings) (b : Backend)
    (m : EmbeddingModel) (s : Store) (req1 : SearchRequest)
    (req2 : HybridSearchRequest) (req3 : TagSearchRequest) :
    resultsLen (SearchService.semantic_search st b m s req1) ≤
      min req1.size st.max_search_size ∧
    resultsLen (SearchService.hybrid_search st b m s req2) ≤
      min req2.size st.max_search_size ∧
    resultsLen (SearchService.search_by_tags st b s req3) ≤
      min req3.size st.max_search_size := by
  refine ⟨?_, ?_, ?_⟩ <;> cases hf : s.fail <;>
    simp [SearchService.semantic_search, SearchService.hybrid_search,
      SearchService.search_by_tags, ContextualSearchEngine.semantic_search,
      ContextualSearchEngine.hybrid_search,
      ContextualSearchEngine.search_by_tags, clientSearch, hf, resultsLen,
      Except.map, execSearch, ContextualSearchEngine.semanticBody,
      ContextualSearchEngine.hybridBody, ContextualSearchEngine.tagsBody,
      inf_le_left, inf_le_right]

/-! ## C10 — tag-search results carry no highlights -/

unseal Rat.add Rat.mul in
/-- C10: every result of `search_by_tags` has an empty highlights mapping —
the tag hit mapper produces no highlights key (`none`), and the service
fills the field with its empty default — while `semantic_search` results
can carry non-empty highlights. -/
theorem tag_search_results_have_no_highlights (st : Settings) (b : Backend)
    (s : Store) (tags : List String) (size : Nat) (req : TagSearchRequest) :
    (∀ l, ContextualSearchEngine.search_by_tags b s tags size = Except.ok l →
      ∀ r ∈ l, r.highlights = none) ∧
    (∀ res, SearchService.search_by_tags st b s req = Except.ok res →
      ∀ r ∈ res, r.highlights = []) ∧
    (∃ l, ContextualSearchEngine.semantic_search demoBackend demoModel
        demoStore "q" 5 none = Except.ok l ∧
      ∃ r ∈ l, r.highlights = some [("content", ["excerpt"])]) := by
  have hengine : ∀ (s₀ : Store) (tags₀ : List String) (size₀ : Nat) (l : List EngineResult),
      ContextualSearchEngine.search_by_tags b s₀ tags₀ size₀ = Except.ok l →
      ∀ r ∈ l, r.highlights = none := by
    intro s₀ tags₀ size₀ l hl r hr
    cases hf : s₀.fail with
    | some e =>
      simp [ContextualSearchEngine.search_by_tags, clientSearch, hf] at hl
      subst hl
      cases hr
    | none =>
      simp [ContextualSearchEngine.search_by_tags, clientSearch, hf] at hl
      subst hl
      obtain ⟨h, _, rfl⟩ := List.mem_map.1 hr
      rfl
  refine ⟨hengine s tags size, ?_, ?_⟩
  · intro res hres r hr
    unfold SearchService.search_by_tags at hres
    cases heng : ContextualSearchEngine.search_by_tags b s req.tags
        (min req.size st.max_search_size) with
    | error e => rw [heng] at hres; cases hres
    | ok l =>
      rw [heng] at hres
      simp [Except.map] at hres
      subst hres
      obtain ⟨r', hr', rfl⟩ := List.mem_map.1 hr
      have := hengine s req.tags (min req.size st.max_search_size) l heng r' hr'
      simp [toServiceResult, this]
  · refine ⟨[ContextualSearchEngine.hitToResult
        ⟨"B", 3, demoDocB, some [("content", ["excerpt"])]⟩,
      ContextualSearchEngine.hitToResult
        ⟨"A", 2, demoDocA, some [("content", ["excerpt"])]⟩], by decide,
      ContextualSearchEngine.hitToResult
        ⟨"B", 3, demoDocB, some [("content", ["excerpt"])]⟩, by decide, rfl⟩

unseal Rat.add Rat.mul in
/-- C10 witness: the theorem applied to a concrete tag search on the demo
store, whose single result has no highlights. -/
theorem tag_search_results_have_no_highlights_witness :
    (ContextualSearchEngine.tagHitToResult
      ⟨"A", 1, demoDocA, none⟩).highlights = none :=
  (tag_search_results_have_no_highlights demoSettings demoBackend demoStore
      ["a"] 10 { tags := ["a"], size := 10 }).1
    [ContextualSearchEngine.tagHitToResult ⟨"A", 1, demoDocA, none⟩]
    (by decide) (ContextualSearchEngine.tagHitToResult ⟨"A", 1, demoDocA, none⟩)
    (by decide)

/-! ## C4 — stored vectors always have length D -/

theorem upsertDoc_forall {P : StoredDoc → Prop} {docs : List StoredDoc}
    {x : StoredDoc} (hd : ∀ d ∈ docs, P d) (hx : P x) :
    ∀ d ∈ ContextualSearchEngine.upsertDoc docs x, P d := by
  intro d hdm
  unfold ContextualSearchEngine.upsertDoc at hdm
  by_cases hc : docs.any (fun y => y.id = x.id)
  · rw [if_pos hc] at hdm
    obtain ⟨y, hy, hdy⟩ := List.mem_map.1 hdm
    by_cases hyx : y.id = x.id
    · rw [if_pos hyx] at hdy
      exact hdy ▸ hx
    · rw [if_neg hyx] at hdy
      exact hdy ▸ hd y hy
  · rw [if_neg hc] at hdm
    rcases List.mem_append.1 hdm with hdm' | hdm'
    · exact hd d hdm'
    · rw [List.mem_singleton.1 hdm']
      exact hx

theorem foldl_upsertDoc_forall {P : StoredDoc → Prop} :
    ∀ (actions docs : List StoredDoc), (∀ d ∈ docs, P d) →
      (∀ a ∈ actions, P a) →
      ∀ d ∈ actions.foldl ContextualSearchEngine.upsertDoc docs, P d := by
  intro actions
  induction actions with
  | nil => intro docs hd _ d hm; exact hd d hm
  | cons a as ih =>
    intro docs hd ha d hm
    rw [List.foldl_cons] at hm
    exact ih _ (upsertDoc_forall hd (ha a (List.mem_cons_self a as)))
      (fun x hx => ha x (List.mem_cons_of_mem a hx)) d hm

/-- C4: assuming the embedding model's contract (successful inference
returns a vector of its reported dimension D), every vector the indexer
produces and stores has length exactly D: the embedding helper always
returns length D (zero vector of length D on inference failure), both
vectors of the document built by `index_document` and of every bulk action
have length D, and both write operations preserve the all-stored-vectors-
have-length-D invariant of the store. -/
theorem stored_vector_lengths_equal_dimension (m : EmbeddingModel)
    (hm : ∀ t v, m.encode t = some v → v.length = m.dimension) :
    (∀ t, (ContextualSearchEngine.generate_embeddings m t).length =
      m.dimension) ∧
    (∀ docId title content category tags created_at now,
      (ContextualSearchEngine.buildDocument m docId title content category
        tags created_at now).title_vector.length = m.dimension ∧
      (ContextualSearchEngine.buildDocument m docId title content category
        tags created_at now).content_vector.length = m.dimension) ∧
    (∀ now doc,
      (ContextualSearchEngine.bulkAction m now doc).title_vector.length =
        m.dimension ∧
      (ContextualSearchEngine.bulkAction m now doc).content_vector.length =
        m.dimension) ∧
    (∀ s docId title content category tags created_at now s',
      (∀ d ∈ s.docs, d.title_vector.length = m.dimension ∧
        d.content_vector.length = m.dimension) →
      ContextualSearchEngine.index_document m s docId title content category
        tags created_at now = Except.ok s' →
      ∀ d ∈ s'.docs, d.title_vector.length = m.dimension ∧
        d.content_vector.length = m.dimension) ∧
    (∀ s docs now s',
      (∀ d ∈ s.docs, d.title_vector.length = m.dimension ∧
        d.content_vector.length = m.dimension) →
      ContextualSearchEngine.bulk_index_documents m s docs now =
        Except.ok s' →
      ∀ d ∈ s'.docs, d.title_vector.length = m.dimension ∧
        d.content_vector.length = m.dimension) := by
  have hgen : ∀ t, (ContextualSearchEngine.generate_embeddings m t).length =
      m.dimension := by
    intro t
    unfold ContextualSearchEngine.generate_embeddings
    cases henc : m.encode t with
    | some v => exact hm t v henc
    | none => exact List.length_replicate m.dimension 0
  have hbuild : ∀ docId title content category tags created_at now,
      (ContextualSearchEngine.buildDocument m docId title content category
        tags created_at now).title_vector.length = m.dimension ∧
      (ContextualSearchEngine.buildDocument m docId title content category
        tags created_at now).content_vector.length = m.dimension := by
    intro docId title content category tags created_at now
    exact ⟨hgen title, hgen content⟩
  have hbulkact : ∀ now doc,
      (ContextualSearchEngine.bulkAction m now doc).title_vector.length =
        m.dimension ∧
      (ContextualSearchEngine.bulkAction m now doc).content_vector.length =
        m.dimension := by
    intro now doc
    exact ⟨hgen doc.title, hgen doc.content⟩
  refine ⟨hgen, hbuild, hbulkact, ?_, ?_⟩
  · intro s docId title content category tags created_at now s' hinv heq d hd
    cases hf : s.fail with
    | some e =>
      have hs : s' = s := by
        unfold ContextualSearchEngine.index_document
          ContextualSearchEngine.clientIndexDoc at heq
        rw [hf] at heq
        exact (Except.ok.inj heq).symm
      exact hinv d (hs ▸ hd)
    | none =>
      have hs : s'.docs = ContextualSearchEngine.upsertDoc s.docs
          (ContextualSearchEngine.buildDocument m docId title content
            category tags created_at now) := by
        unfold ContextualSearchEngine.index_document
          ContextualSearchEngine.clientIndexDoc at heq
        rw [hf] at heq
        rw [← Except.ok.inj heq]
      rw [hs] at hd
      exact upsertDoc_forall hinv
        (hbuild docId title content category tags created_at now) d hd
  · intro s docs now s' hinv heq d hd
    cases hf : s.fail with
    | some e =>
      have hs : s' = s := by
        unfold ContextualSearchEngine.bulk_index_documents
          ContextualSearchEngine.clientBulk at heq
        rw [hf] at heq
        exact (Except.ok.inj heq).symm
      exact hinv d (hs ▸ hd)
    | none =>
      have hs : s'.docs = (docs.map (ContextualSearchEngine.bulkAction m
          now)).foldl ContextualSearchEngine.upsertDoc s.docs := by
        unfold ContextualSearchEngine.bulk_index_documents
          ContextualSearchEngine.clientBulk at heq
        rw [hf] at heq
        rw [← Except.ok.inj heq]
      rw [hs] at hd
      refine foldl_upsertDoc_forall _ _ hinv ?_ d hd
      intro a ha
      obtain ⟨doc, _, rfl⟩ := List.mem_map.1 ha
      exact hbulkact now doc

/-- C4 witness: the theorem applied to the demo model (dimension 2, whose
inference always returns a length-2 vector). -/
theorem stored_vector_lengths_equal_dimension_witness :
    (ContextualSearchEngine.generate_embeddings demoModel "feline pets").length =
      demoModel.dimension :=
  (stored_vector_lengths_equal_dimension demoModel (by
    intro t v hv
    simp only [demoModel] at hv
    rw [← Option.some.inj hv]
    rfl)).1 "feline pets"

/-! ## C6 — tag search uses any-match semantics -/

theorem isSome_ite {α : Type} {c : Prop} [Decidable c] {a : α} :
    (if c then some a else none).isSome = decide c := by
  by_cases h : c <;> simp [h]

/-- C6: `search_by_tags` returns exactly the stored documents whose tag set
meets the query tag set (any-match, not all-match), in store order with the
backend's constant term score, capped at `size`; its query takes no
category filter. -/
theorem search_by_tags_any_match (b : Backend) (s : Store) (tags : List String)
    (size : Nat) (hfail : s.fail = none) (hne : tags ≠ []) :
    ContextualSearchEngine.search_by_tags b s tags size =
      Except.ok (((s.docs.filter
          (fun d => d.tags.any (fun t => tags.contains t))).take size).map
        (fun d => { id := d.id, score := 1, title := d.title,
                    content := d.content, category := some d.category,
                    tags := d.tags, highlights := none })) := by
  have hcands : candidatesOf b s.docs
      (ContextualSearchEngine.tagsBody tags size) = s.docs := by
    unfold candidatesOf
    simp [ContextualSearchEngine.tagsBody]
  have hmatched : matchedOf b s.docs
      (ContextualSearchEngine.tagsBody tags size) =
      s.docs.filter (fun d => d.tags.any (fun t => tags.contains t)) := by
    unfold matchedOf
    rw [hcands]
    apply List.filter_congr
    intro d _
    simp [mustShouldMatch, ContextualSearchEngine.tagsBody, clauseScore,
      isSome_ite, List.any_eq]
  have hscore : ∀ d ∈ s.docs.filter
      (fun x => x.tags.any (fun t => tags.contains t)),
      boolScore b (candidatesOf b s.docs
          (ContextualSearchEngine.tagsBody tags size))
        (ContextualSearchEngine.tagsBody tags size).query d = 1 := by
    intro d hd
    have hcond : d.tags.any (fun t => tags.contains t) = true :=
      (List.mem_filter.1 hd).2
    have hcond2 : ∃ x ∈ d.tags, x ∈ tags := by
      simpa [List.any_eq_true] using hcond
    simp [boolScore, ContextualSearchEngine.tagsBody, clauseScore, hcond2]
  simp only [ContextualSearchEngine.search_by_tags, clientSearch, hfail]
  congr 1
  rw [execSearch, hmatched, sortDesc_of_const hscore, List.map_map]
  apply List.map_congr_left
  intro d hd
  have hd' := List.mem_of_mem_take hd
  have h1 := hscore d hd'
  simp only [ContextualSearchEngine.tagsBody] at h1
  simp [Function.comp, ContextualSearchEngine.tagHitToResult,
    ContextualSearchEngine.tagsBody, h1]

/-- C6 witness: on the demo store (doc A tagged `{a, b}`, doc B tagged
`{c}`), `search_by_tags(["a", "c"])` returns exactly A and B, in store
order. -/
theorem search_by_tags_any_match_witness :
    ContextualSearchEngine.search_by_tags demoBackend demoStore ["a", "c"] 10 =
      Except.ok
        [{ id := "A", score := 1, title := "Cats and Dogs",
           content := "Cats are great pets", category := some "pets",
           tags := ["a", "b"], highlights := none },
         { id := "B", score := 1, title := "Stock Market",
           content := "Markets rose today", category := some "finance",
           tags := ["c"], highlights := none }] := by
  rw [search_by_tags_any_match demoBackend demoStore ["a", "c"] 10 rfl
    (by decide)]
  decide

/-! ## C3 — category filter exactness -/

theorem execSearch_source_satisfies_filter (b : Backend) (docs : List StoredDoc)
    (body : SearchBody) (h : Hit) (hh : h ∈ execSearch b docs body) :
    h.source ∈ docs ∧ body.query.filter.all
      (fun c => (clauseScore b docs c h.source).isSome) = true := by
  unfold execSearch at hh
  obtain ⟨d, hd, rfl⟩ := List.mem_map.1 hh
  have hd1 : d ∈ matchedOf b docs body :=
    mem_sortDesc.1 (List.mem_of_mem_take hd)
  have hd2 : d ∈ candidatesOf b docs body := List.mem_of_mem_filter hd1
  exact ⟨List.mem_of_mem_filter hd2, (List.mem_filter.1 hd2).2⟩

/-- C3: with a non-empty category `C` supplied, `semantic_search` and
`hybrid_search` place a hard `term` pre-filter on the backend query, so no
returned result's stored category can differ from `C`. -/
theorem category_filter_is_exact (b : Backend) (m : EmbeddingModel) (s : Store)
    (q : String) (size : Nat) (C : String) (hC : C ≠ "") :
    (∀ l r, ContextualSearchEngine.semantic_search b m s q size (some C) =
      Except.ok l → r ∈ l → r.category = some C) ∧
    (∀ sw kw l r, ContextualSearchEngine.hybrid_search b m s q size (some C)
      sw kw = Except.ok l → r ∈ l → r.category = some C) := by
  have hfilt : ContextualSearchEngine.catFilter (some C) =
      [Clause.termCategory C] := by
    simp [ContextualSearchEngine.catFilter, pyTruthy, hC]
  have main : ∀ (body : SearchBody),
      body.query.filter = [Clause.termCategory C] →
      ∀ h ∈ execSearch b s.docs body, h.source.category = C := by
    intro body hb h hh
    have h2 := (execSearch_source_satisfies_filter b s.docs body h hh).2
    rw [hb] at h2
    simp [clauseScore, isSome_ite] at h2
    exact h2
  constructor
  · intro l r hl hr
    cases hf : s.fail with
    | some e =>
      simp [ContextualSearchEngine.semantic_search, clientSearch, hf] at hl
      subst hl
      cases hr
    | none =>
      simp only [ContextualSearchEngine.semantic_search, clientSearch, hf,
        Except.ok.injEq] at hl
      subst hl
      obtain ⟨h, hh, rfl⟩ := List.mem_map.1 hr
      have hc := main _ (by simp [ContextualSearchEngine.semanticBody, hfilt])
        h hh
      simp [ContextualSearchEngine.hitToResult, hc]
  · intro sw kw l r hl hr
    cases hf : s.fail with
    | some e =>
      simp [ContextualSearchEngine.hybrid_search, clientSearch, hf] at hl
      subst hl
      cases hr
    | none =>
      simp only [ContextualSearchEngine.hybrid_search, clientSearch, hf,
        Except.ok.injEq] at hl
      subst hl
      obtain ⟨h, hh, rfl⟩ := List.mem_map.1 hr
      have hc := main _ (by simp [ContextualSearchEngine.hybridBody, hfilt])
        h hh
      simp [ContextualSearchEngine.hitToResult, hc]

unseal Rat.add Rat.mul in
/-- C3 witness: on the demo store, `semantic_search` filtered to category
`pets` returns exactly document A, whose category is `pets`. -/
theorem category_filter_is_exact_witness :
    (ContextualSearchEngine.hitToResult
      ⟨"A", 2, demoDocA, some [("content", ["excerpt"])]⟩).category =
      some "pets" :=
  (category_filter_is_exact demoBackend demoModel demoStore "q" 5 "pets"
      (by decide)).1
    [ContextualSearchEngine.hitToResult
      ⟨"A", 2, demoDocA, some [("content", ["excerpt"])]⟩]
    (ContextualSearchEngine.hitToResult
      ⟨"A", 2, demoDocA, some [("content", ["excerpt"])]⟩)
    (by decide) (by decide)

/-! ## C8 — hybrid search with extreme weights matches semantic search -/

theorem hybrid_unit_weight_score (b : Backend) (q : String) (qv : List Rat)
    (size : Nat) (cat : Option String) (cands : List StoredDoc)
    (d : StoredDoc) :
    boolScore b cands
      (ContextualSearchEngine.hybridBody q qv size cat 1 0).query d =
      (if d ∈ knnTopK b qv size cands then b.sim qv d.content_vector else 0) := by
  by_cases hd : d ∈ knnTopK b qv size cands <;>
    cases hkw : b.kwScore q d <;>
    simp [boolScore, ContextualSearchEngine.hybridBody, clauseScore, hd, hkw]

theorem semantic_score (b : Backend) (qv : List Rat)
    (size : Nat) (cat : Option String) (cands : List StoredDoc)
    (d : StoredDoc) :
    boolScore b cands
      (ContextualSearchEngine.semanticBody qv size cat).query d =
      (if d ∈ knnTopK b qv size cands then b.sim qv d.content_vector else 0) := by
  by_cases hd : d ∈ knnTopK b qv size cands <;>
    simp [boolScore, ContextualSearchEngine.semanticBody, clauseScore, hd]

theorem semantic_matched (b : Backend) (qv : List Rat) (size : Nat)
    (cat : Option String) (docs : List StoredDoc) :
    matchedOf b docs (ContextualSearchEngine.semanticBody qv size cat) =
      (candidatesOf b docs (ContextualSearchEngine.semanticBody qv size cat)).filter
        (fun d => decide (d ∈ knnTopK b qv size
          (candidatesOf b docs (ContextualSearchEngine.semanticBody qv size cat)))) := by
  unfold matchedOf
  apply List.filter_congr
  intro d _
  simp [mustShouldMatch, ContextualSearchEngine.semanticBody, clauseScore,
    isSome_ite]

theorem hybrid_matched_of_topK (b : Backend) (q : String) (qv : List Rat)
    (size : Nat) (cat : Option String) (cands : List StoredDoc)
    (d : StoredDoc) (hd : d ∈ knnTopK b qv size cands) :
    mustShouldMatch b cands
      (ContextualSearchEngine.hybridBody q qv size cat 1 0).query d = true := by
  by_cases hfilt : (ContextualSearchEngine.catFilter cat).isEmpty <;>
    simp [mustShouldMatch, ContextualSearchEngine.hybridBody, clauseScore,
      hfilt, hd, isSome_ite]

theorem take_sortDesc_core {α : Type} (key : α → Rat) (P : α → Bool)
    (size : Nat) (cands matched : List α)
    (hfilter : matched.filter P = cands.filter P)
    (hiff : ∀ x ∈ matched, (P x = true ↔ 0 < key x))
    (hlen : (cands.filter P).length = min size cands.length)
    (hmatched_len : matched.length ≤ cands.length)
    (hall : cands.length < size → ∀ x ∈ matched, P x = true) :
    (sortDesc key matched).take size =
      (sortDesc key (cands.filter P)).take size := by
  have hsorted := sortDesc_sorted key matched
  have hiff' : ∀ x ∈ sortDesc key matched, (P x = true ↔ 0 < key x) :=
    fun x hx => hiff x (mem_sortDesc.1 hx)
  have hsplit := sorted_pos_split hsorted hiff'
  have hA : (sortDesc key matched).filter P = sortDesc key (cands.filter P) := by
    rw [filter_sortDesc, hfilter]
  have hlenA : ((sortDesc key matched).filter P).length = min size cands.length := by
    rw [hA, length_sortDesc, hlen]
  have hRHS : (sortDesc key (cands.filter P)).take size =
      sortDesc key (cands.filter P) := by
    apply List.take_of_length_le
    rw [length_sortDesc, hlen]
    exact min_le_left _ _
  rw [hRHS]
  by_cases hsz : size ≤ cands.length
  · have hlenA' : ((sortDesc key matched).filter P).length = size := by
      rw [hlenA]
      exact Nat.min_eq_left hsz
    calc (sortDesc key matched).take size
        = ((sortDesc key matched).filter P ++
            (sortDesc key matched).filter (fun x => !P x)).take size := by
          rw [← hsplit]
      _ = (sortDesc key matched).filter P := List.take_left' hlenA'
      _ = sortDesc key (cands.filter P) := hA
  · have hclt : cands.length < size := Nat.lt_of_not_le hsz
    have hPall : ∀ x ∈ sortDesc key matched, P x = true :=
      fun x hx => hall hclt x (mem_sortDesc.1 hx)
    have hB : (sortDesc key matched).filter (fun x => !P x) = [] :=
      List.filter_eq_nil_iff.2 (by
        intro x hx
        simp [hPall x hx])
    have hAeq : (sortDesc key matched).filter P = sortDesc key matched := by
      conv_rhs => rw [hsplit]
      rw [hB, List.append_nil]
    rw [← hA, hAeq]
    apply List.take_of_length_le
    rw [length_sortDesc]
    exact le_of_lt (Nat.lt_of_le_of_lt hmatched_len hclt)

theorem execSearch_hybrid_unit_weights (b : Backend) (q : String)
    (qv : List Rat) (size : Nat) (cat : Option String) (docs : List StoredDoc)
    (hnodup : (docs.map StoredDoc.id).Nodup)
    (hpos : ∀ d ∈ docs, 0 < b.sim qv d.content_vector) :
    execSearch b docs (ContextualSearchEngine.hybridBody q qv size cat 1 0) =
      execSearch b docs (ContextualSearchEngine.semanticBody qv size cat) := by
  have hcands : candidatesOf b docs
      (ContextualSearchEngine.hybridBody q qv size cat 1 0) =
      candidatesOf b docs (ContextualSearchEngine.semanticBody qv size cat) :=
    rfl
  set cds := candidatesOf b docs
    (ContextualSearchEngine.semanticBody qv size cat) with hcdsdef
  set tk := knnTopK b qv size cds with htkdef
  set P : StoredDoc → Bool := fun d => decide (d ∈ tk) with hPdef
  set key0 : StoredDoc → Rat :=
    fun d => if d ∈ tk then b.sim qv d.content_vector else 0 with hkey0def
  have hdocs_nodup : docs.Nodup := hnodup.of_map
  have hcds_sub : ∀ x ∈ cds, x ∈ docs := fun x hx => List.mem_of_mem_filter hx
  have hcds_nodup : cds.Nodup := List.Nodup.filter _ hdocs_nodup
  have htk_sub : ∀ x ∈ tk, x ∈ cds :=
    fun x hx => mem_sortDesc.1 (List.mem_of_mem_take hx)
  have htk_nodup : tk.Nodup := by
    rw [htkdef]
    unfold knnTopK
    exact ((sortDesc_perm _ _).nodup_iff.2 hcds_nodup).sublist
      (List.take_sublist _ _)
  -- the filtered candidate set is a permutation of the top-k set
  have hperm : (cds.filter P).Perm tk := by
    refine (List.perm_ext_iff_of_nodup (List.Nodup.filter _ hcds_nodup)
      htk_nodup).2 ?_
    intro a
    simp only [List.mem_filter, hPdef, decide_eq_true_eq]
    exact ⟨fun h => h.2, fun h => ⟨htk_sub a h, h⟩⟩
  have hlen : (cds.filter P).length = min size cds.length := by
    rw [hperm.length_eq, htkdef]
    unfold knnTopK
    rw [List.length_take, length_sortDesc]
  -- the two matched sets
  have hmS : matchedOf b docs
      (ContextualSearchEngine.semanticBody qv size cat) = cds.filter P :=
    semantic_matched b qv size cat docs
  have hmH_eq : matchedOf b docs
      (ContextualSearchEngine.hybridBody q qv size cat 1 0) =
      cds.filter (mustShouldMatch b cds
        (ContextualSearchEngine.hybridBody q qv size cat 1 0).query) := by
    unfold matchedOf
    rw [hcands]
  have hmH_sub : ∀ x ∈ matchedOf b docs
      (ContextualSearchEngine.hybridBody q qv size cat 1 0), x ∈ cds := by
    intro x hx
    rw [hmH_eq] at hx
    exact List.mem_of_mem_filter hx
  have hmH_filter : (matchedOf b docs
      (ContextualSearchEngine.hybridBody q qv size cat 1 0)).filter P =
      cds.filter P := by
    rw [hmH_eq, List.filter_filter]
    apply List.filter_congr
    intro a _
    by_cases ha : a ∈ tk
    · simp [hPdef, ha, hybrid_matched_of_topK b q qv size cat cds a ha]
    · simp [hPdef, ha]
  have hiff : ∀ x ∈ matchedOf b docs
      (ContextualSearchEngine.hybridBody q qv size cat 1 0),
      (P x = true ↔ 0 < key0 x) := by
    intro x hx
    by_cases hxin : x ∈ tk
    · simp only [hPdef, hkey0def, decide_eq_true_eq, if_pos hxin]
      exact ⟨fun _ => hpos x (hcds_sub x (hmH_sub x hx)), fun _ => hxin⟩
    · simp only [hPdef, hkey0def, decide_eq_true_eq, if_neg hxin]
      exact ⟨fun hc => absurd hc hxin, fun hc => absurd hc (lt_irrefl 0)⟩
  have hall : cds.length < size → ∀ x ∈ matchedOf b docs
      (ContextualSearchEngine.hybridBody q qv size cat 1 0), P x = true := by
    intro hlt x hx
    have hxc : x ∈ cds := hmH_sub x hx
    have : tk = sortDesc (fun d => b.sim qv d.content_vector) cds := by
      rw [htkdef]
      unfold knnTopK
      apply List.take_of_length_le
      rw [length_sortDesc]
      exact le_of_lt hlt
    simp only [hPdef, decide_eq_true_eq]
    rw [this]
    exact mem_sortDesc.2 hxc
  have hmatched_len : (matchedOf b docs
      (ContextualSearchEngine.hybridBody q qv size cat 1 0)).length ≤
      cds.length := by
    rw [hmH_eq]
    exact List.length_filter_le _ _
  -- switch both sort keys to the common key and apply the core lemma
  have hkeyH : ∀ d, boolScore b cds
      (ContextualSearchEngine.hybridBody q qv size cat 1 0).query d = key0 d :=
    fun d => hybrid_unit_weight_score b q qv size cat cds d
  have hkeyS : ∀ d, boolScore b cds
      (ContextualSearchEngine.semanticBody qv size cat).query d = key0 d :=
    fun d => semantic_score b qv size cat cds d
  have hdocs_eq : (sortDesc (boolScore b cds
      (ContextualSearchEngine.hybridBody q qv size cat 1 0).query)
      (matchedOf b docs
        (ContextualSearchEngine.hybridBody q qv size cat 1 0))).take size =
      (sortDesc (boolScore b cds
        (ContextualSearchEngine.semanticBody qv size cat).query)
        (matchedOf b docs
          (ContextualSearchEngine.semanticBody qv size cat))).take size := by
    rw [sortDesc_congr (fun z _ => hkeyH z), sortDesc_congr (fun z _ => hkeyS z),
      hmS]
    exact take_sortDesc_core key0 P size cds _ hmH_filter hiff hlen
      hmatched_len hall
  show ((sortDesc (boolScore b (candidatesOf b docs
      (ContextualSearchEngine.hybridBody q qv size cat 1 0))
      (ContextualSearchEngine.hybridBody q qv size cat 1 0).query)
      (matchedOf b docs
        (ContextualSearchEngine.hybridBody q qv size cat 1 0))).take
      (ContextualSearchEngine.hybridBody q qv size cat 1 0).size).map _ =
    ((sortDesc (boolScore b (candidatesOf b docs
      (ContextualSearchEngine.semanticBody qv size cat))
      (ContextualSearchEngine.semanticBody qv size cat).query)
      (matchedOf b docs
        (ContextualSearchEngine.semanticBody qv size cat))).take
      (ContextualSearchEngine.semanticBody qv size cat).size).map _
  rw [hcands]
  have hsizeH : (ContextualSearchEngine.hybridBody q qv size cat 1 0).size =
    size := rfl
  have hsizeS : (ContextualSearchEngine.semanticBody qv size cat).size =
    size := rfl
  rw [hsizeH, hsizeS, hdocs_eq]
  apply List.map_congr_left
  intro d _
  rw [hkeyH d, hkeyS d]
  rfl

/-- C8: with `semantic_weight = 1` and `keyword_weight = 0`, `hybrid_search`
produces the same ranked sequence of result ids as `semantic_search` for the
same query, size and category (given the store invariant that ids are
unique and the fact that the store's knn similarity scores are strictly
positive). -/
theorem hybrid_unit_weights_same_ranking (b : Backend) (m : EmbeddingModel)
    (s : Store) (q : String) (size : Nat) (cat : Option String)
    (hnodup : (s.docs.map StoredDoc.id).Nodup)
    (hpos : ∀ d ∈ s.docs, 0 <
      b.sim (ContextualSearchEngine.generate_embeddings m q)
        d.content_vector) :
    resultIds (ContextualSearchEngine.hybrid_search b m s q size cat 1 0) =
      resultIds (ContextualSearchEngine.semantic_search b m s q size cat) := by
  cases hf : s.fail with
  | some e =>
    simp [ContextualSearchEngine.hybrid_search,
      ContextualSearchEngine.semantic_search, clientSearch, hf]
  | none =>
    simp only [ContextualSearchEngine.hybrid_search,
      ContextualSearchEngine.semantic_search, clientSearch, hf]
    rw [execSearch_hybrid_unit_weights b q
      (ContextualSearchEngine.generate_embeddings m q) size cat s.docs
      hnodup hpos]

unseal Rat.add Rat.mul in
/-- C8 witness: the theorem applied to the demo store (distinct ids,
positive similarities). -/
theorem hybrid_unit_weights_same_ranking_witness :
    resultIds (ContextualSearchEngine.hybrid_search demoBackend demoModel
      demoStore "q" 5 none 1 0) =
      resultIds (ContextualSearchEngine.semantic_search demoBackend demoModel
        demoStore "q" 5 none) :=
  hybrid_unit_weights_same_ranking demoBackend demoModel demoStore "q" 5 none
    (by decide) (by decide)
